import Mathlib

/-!
Shallow embedding of `stream_stats_exporter.go` (stream-stats-exporter)

The exporter answers `/probe?target=..&period=..&streamingTime=..` by running two
measurements (bitrate through libvlc, latency through an ICMP echo) and rendering
three gauges.  The Go functions are embedded as Lean functions over an explicit
`World` that fixes what the libraries outside the repository answer.

* `float64` values are modelled by `F64`: an exact rational, `NaN`, or an infinity.
  Sums and quotients are taken in exact rational arithmetic.
* `time.Duration` is an `Int` number of nanoseconds, Go `int` is an `Int`.
* The two goroutines of `runAnalysis` are modelled by the order in which they store
  their results into the shared variables.
* A loop that may not end takes fuel and answers `none` when the fuel is used up.
-/

namespace StreamStats

/-- Go `error` values are represented by their message. -/
abbrev Error := String

deriving instance DecidableEq for Except

/-- A `float64`: an exact rational, `NaN`, or a signed infinity. -/
inductive F64 where
  | num (q : ℚ)
  | nan
  | inf (negative : Bool)
deriving DecidableEq

/-- Division `x / float64(n)` of a float by a converted counter, with IEEE results for a
zero divisor: `0/0 = NaN`, `x/0 = ±Inf`. -/
def fdiv (x : ℚ) (n : Nat) : F64 :=
  if n = 0 then
    if x = 0 then F64.nan else F64.inf (decide (x < 0))
  else F64.num (x / (n : ℚ))

/-! ## libvlc as seen by `getBitrate` -/

/-- What libvlc answers for one stream URL. The first four fields are the errors, if
any, of `vlc.Init`, `vlc.NewPlayer`, `player.LoadMediaFromURL` and `player.Play`;
`starts` says whether `player.IsPlaying()` ever turns true, so that the wait loop ends.
`playing i` is the answer of `player.IsPlaying()` at the `i`-th test of the sampling
loop's condition as long as the loop itself has not called `player.Stop()` (after that
call the answer is false); `stats i` is the outcome of `media.Stats()` in the `i`-th
iteration (its `DemuxBitRate` field). -/
structure Vlc where
  init : Option Error
  newPlayer : Option Error
  loadMedia : Option Error
  play : Option Error
  starts : Bool
  playing : Nat → Bool
  stats : Nat → Except Error ℚ

/-- Outcome of `getBitrate`: the two returned values, and the number of `media.Stats()`
calls made (a ghost counter). -/
structure BitrateResult where
  value : F64
  err : Option Error
  reads : Nat
deriving DecidableEq

/-- The loop `for player.IsPlaying() { ... }` of `getBitrate` followed by the final
`return bitRates / float64(counter), nil`. `i` counts the iterations done so far,
`stopped` records that the loop has called `player.Stop()`. -/
def sampleLoop (v : Vlc) (streamingTime : Int) :
    Nat → Nat → Bool → Nat → ℚ → Option BitrateResult
  | 0, _, _, _, _ => none
  | fuel + 1, i, stopped, counter, bitRates =>
    if !stopped && v.playing i then
      match v.stats i with
      | .error _ => some ⟨F64.num 0, none, i + 1⟩
      | .ok demuxBitRate =>
        let inputBitrate := demuxBitRate * 8
        let bitRates1 := if inputBitrate ≠ 0 then bitRates + inputBitrate else bitRates
        let counter1 := if inputBitrate ≠ 0 then counter + 1 else counter
        let stopped1 := if (counter1 : Int) = streamingTime then true else stopped
        sampleLoop v streamingTime fuel (i + 1) stopped1 counter1 bitRates1
    else some ⟨fdiv bitRates counter, none, i⟩

/-- `getBitrate(videoUrl, streamingTime, wg)`, given the library's behaviour for
`videoUrl`. `none`: the call does not return (the wait for playback never ends, or the
sampling loop is still running when the fuel is used up). -/
def getBitrate (v : Vlc) (streamingTime : Int) (fuel : Nat) : Option BitrateResult :=
  match v.init with
  | some e => some ⟨F64.num 0, some e, 0⟩
  | none =>
    match v.newPlayer with
    | some e => some ⟨F64.num 0, some e, 0⟩
    | none =>
      match v.loadMedia with
      | some e => some ⟨F64.num 0, some e, 0⟩
      | none =>
        match v.play with
        | some e => some ⟨F64.num 0, some e, 0⟩
        | none =>
          if v.starts then sampleLoop v streamingTime fuel 0 false 0 0
          else none

/-! ## URL parsing and the latency probe -/

/-- The fields of a parsed `net/url.URL` that the program or its callers look at. -/
structure URL where
  scheme : String
  opaq : String
  host : String
  path : String
  rawQuery : String
  fragment : String
deriving DecidableEq

/-- What `go-fastping` does for one address: `recv` is `rtt.Milliseconds()` as handed to
`OnRecv` when an echo reply arrives, `run` is the result of `p.Run()`. -/
structure Ping where
  recv : Option Int
  run : Option Error

/-- The order in which the two goroutines of `runAnalysis` store their results. -/
inductive Order where
  | bitrateFirst
  | latencyFirst
deriving DecidableEq

/-- Everything outside the repository that a request depends on: the standard library
parsers, libvlc, the resolver, the pinger, and the scheduling of the two goroutines. -/
structure World where
  parseDuration : String → Except Error Int
  atoi : String → Except Error Int
  urlParse : String → Except Error URL
  vlc : String → Vlc
  resolveIPAddr : String → Option Error
  ping : String → Ping
  order : Order

/-- The pieces of `s` between occurrences of the one-character separator `sep`, as
`strings.Split(s, sep)` returns them; `cur` is the piece being read, reversed. -/
def splitAux (sep : Char) : List Char → List Char → List String
  | [], cur => [String.mk cur.reverse]
  | c :: cs, cur =>
    if c = sep then String.mk cur.reverse :: splitAux sep cs []
    else splitAux sep cs (c :: cur)

/-- `strings.Split(s, sep)` for a separator of one character. -/
def stringsSplit (s : String) (sep : Char) : List String :=
  splitAux sep s.data []

/-- `parseDomainFromUrl(urlAddress)`. -/
def parseDomainFromUrl (w : World) (urlAddress : String) : Except Error String :=
  match w.urlParse urlAddress with
  | .error err => .error err
  | .ok u => .ok ((stringsSplit u.host ':').headD "")

/-- Outcome of `getLatency`: the two returned values, and the argument with which
`net.ResolveIPAddr` was called, if it was (a ghost field). -/
structure LatencyResult where
  value : F64
  err : Option Error
  resolved : Option String
deriving DecidableEq

/-- `getLatency(url, wg)`. -/
def getLatency (w : World) (url : String) : LatencyResult :=
  match parseDomainFromUrl w url with
  | .error err => ⟨F64.num 0, some err, none⟩
  | .ok domain =>
    match w.resolveIPAddr domain with
    | some err => ⟨F64.num 0, some err, some domain⟩
    | none =>
      let latency : F64 :=
        match (w.ping domain).recv with
        | some ms => F64.num (ms : ℚ)
        | none => F64.num 0
      match (w.ping domain).run with
      | some err => ⟨F64.num 0, some err, some domain⟩
      | none => ⟨latency, none, some domain⟩

/-! ## `runAnalysis` -/

/-- The variables `bitrate`, `latency`, `err` of `runAnalysis` that both goroutines
write to. -/
structure Shared where
  bitrate : F64
  latency : F64
  err : Option Error
deriving DecidableEq

/-- The assignment `bitrate, err = getBitrate(...)` of the first goroutine. -/
def storeBitrate (r : BitrateResult) (s : Shared) : Shared :=
  { s with bitrate := r.value, err := r.err }

/-- The assignment `latency, err = getLatency(...)` of the second goroutine. -/
def storeLatency (r : LatencyResult) (s : Shared) : Shared :=
  { s with latency := r.value, err := r.err }

/-- `runAnalysis(streamUrl, streamingTime)`: both probes run, both store their result
in the order `w.order`, then the shared `err` decides. `none`: `getBitrate` does not
return, so `wg.Wait()` does not either. -/
def runAnalysis (w : World) (streamUrl : String) (streamingTime : Int) (fuel : Nat) :
    Option (F64 × F64 × Option Error) :=
  match getBitrate (w.vlc streamUrl) streamingTime fuel with
  | none => none
  | some b =>
    let l := getLatency w streamUrl
    let s0 : Shared := ⟨F64.num 0, F64.num 0, none⟩
    let s :=
      match w.order with
      | Order.bitrateFirst => storeLatency l (storeBitrate b s0)
      | Order.latencyFirst => storeBitrate b (storeLatency l s0)
    match s.err with
    | some err => some (F64.num 0, F64.num 0, some err)
    | none => some (s.bitrate, s.latency, none)

/-! ## The exporter -/

/-- A `prometheus.Desc`: fully qualified name and help text. -/
structure Desc where
  fqName : String
  help : String
deriving DecidableEq

/-- A constant gauge sent on the channel of `Collect`. -/
structure Metric where
  desc : Desc
  value : F64
deriving DecidableEq

/-- The constant `namespace` of the source. -/
def namespaceConst : String := "monitoring"

/-- `prometheus.BuildFQName`: the non-empty parts joined by an underscore. -/
def BuildFQName (ns subsystem name : String) : String :=
  if name = "" then ""
  else if ns ≠ "" ∧ subsystem ≠ "" then ns ++ "_" ++ subsystem ++ "_" ++ name
  else if ns ≠ "" then ns ++ "_" ++ name
  else if subsystem ≠ "" then subsystem ++ "_" ++ name
  else name

/-- The struct `Exporter` (the mutex left out). -/
structure Exporter where
  target : String
  period : Int
  streamingTime : Int
  success : Desc
  bitrate : Desc
  latency : Desc
deriving DecidableEq

/-- `NewExporter(target, period, streamingTime)`. -/
def NewExporter (target : String) (period : Int) (streamingTime : Int) : Exporter :=
  { target := target
    period := period
    streamingTime := streamingTime
    success := ⟨BuildFQName namespaceConst "" "success",
      "Was the last measurement for the probe successful."⟩
    bitrate := ⟨BuildFQName namespaceConst "" "bitrate", "Bitrate of the stream in kbit/s."⟩
    latency := ⟨BuildFQName namespaceConst "" "latency", "Latency of the target in ms."⟩ }

/-- What one call of `Collect` leaves behind: the metrics sent on the channel, in order,
and the new value of the counter `ssErrors`. -/
structure Collected where
  metrics : List Metric
  ssErrors : Nat
deriving DecidableEq

/-- `Exporter.Collect(ch)`; `ssErrors` is the counter before the call. `none`:
`runAnalysis` does not return. -/
def Exporter.Collect (e : Exporter) (w : World) (fuel : Nat) (ssErrors : Nat) :
    Option Collected :=
  match runAnalysis w e.target e.streamingTime fuel with
  | none => none
  | some (_, _, some _) => some ⟨[⟨e.success, F64.num 0⟩], ssErrors + 1⟩
  | some (bitrate, latency, none) =>
    some ⟨[⟨e.success, F64.num 1⟩, ⟨e.bitrate, bitrate⟩, ⟨e.latency, latency⟩], ssErrors⟩

/-! ## The request handler -/

/-- `time.Second`, in nanoseconds. -/
def Second : Int := 1000000000

/-- `Duration.Seconds()`, in exact arithmetic. -/
def Seconds (d : Int) : ℚ :=
  ((Int.tdiv d Second : Int) : ℚ) + ((Int.tmod d Second : Int) : ℚ) / 1000000000

/-- The three values `r.URL.Query().Get(..)` returns in `handler`; an absent parameter
reads as the empty string. -/
structure Query where
  target : String
  period : String
  streamingTime : String
deriving DecidableEq

/-- How far the scrape of the request-scoped registry got. -/
inductive Scrape where
  | notStarted
  | unfinished
  | metrics (ms : List Metric)
deriving DecidableEq

/-- The effects of one call of `handler`: the status and body written, the counter
`ssErrors` afterwards, the `Exporter` built by `NewExporter` (if any) and the scrape. -/
structure Handled where
  status : Nat
  body : String
  ssErrors : Nat
  exporter : Option Exporter
  scrape : Scrape
deriving DecidableEq

/-- `http.StatusBadRequest`. -/
def StatusBadRequest : Nat := 400

/-- `handler(w, r)`; `ssErrors` is the counter before the call. The observation of
`ssDuration` is left out. On the accepted path `promhttp` collects from the exporter
once and answers 200; if `Collect` does not return no status is written (0). -/
def handler (w : World) (q : Query) (fuel : Nat) (ssErrors : Nat) : Handled :=
  let target := q.target
  if target = "" then
    ⟨StatusBadRequest, "'target' parameter must be specified", ssErrors + 1, none,
      Scrape.notStarted⟩
  else
    let parsedPeriod : Except Error Int :=
      if q.period ≠ "" then w.parseDuration q.period else .ok 0
    match parsedPeriod with
    | .error err =>
      ⟨StatusBadRequest, "'period' parameter must be a duration: " ++ err, ssErrors + 1,
        none, Scrape.notStarted⟩
    | .ok runPeriod0 =>
      let runPeriod := if Seconds runPeriod0 = 0 then Second * 5 else runPeriod0
      let parsedTime : Except Error Int :=
        if q.streamingTime ≠ "" then w.atoi q.streamingTime else .ok 0
      match parsedTime with
      | .error err =>
        ⟨StatusBadRequest, "'streamingTime' parameter must be an integer: " ++ err,
          ssErrors + 1, none, Scrape.notStarted⟩
      | .ok streamingTime0 =>
        let streamingTime := if streamingTime0 = 0 then 5 else streamingTime0
        let exporter := NewExporter target runPeriod streamingTime
        match exporter.Collect w fuel ssErrors with
        | none => ⟨0, "", ssErrors, some exporter, Scrape.unfinished⟩
        | some c => ⟨200, "", c.ssErrors, some exporter, Scrape.metrics c.metrics⟩

/-! ## Models of the Go standard library functions the handler calls

These functions are not part of the repository. The theorems below hold for every
`World`, whatever its parsers answer; the models here serve to run the program on
concrete requests. -/

/-- An ASCII decimal digit. -/
def isDigit (c : Char) : Bool := decide (48 ≤ c.toNat) && decide (c.toNat ≤ 57)

/-- The value of a decimal digit. -/
def digitVal (c : Char) : Nat := c.toNat - 48

/-- `strconv.Quote` for text without characters that need escaping. -/
def quote (s : String) : String :=
  String.mk [Char.ofNat 34] ++ s ++ String.mk [Char.ofNat 34]

/-- The two kinds of `strconv.NumError`. -/
inductive NumErr where
  | syntaxErr
  | rangeErr
deriving DecidableEq

/-- The digit loop of `strconv.ParseUint(s, 10, 64)`. -/
def parseUintLoop : List Char → Nat → Except NumErr Nat
  | [], n => .ok n
  | c :: cs, n =>
    if !isDigit c then .error NumErr.syntaxErr
    else if n ≥ (2 ^ 64 - 1) / 10 + 1 then .error NumErr.rangeErr
    else if n * 10 + digitVal c > 2 ^ 64 - 1 then .error NumErr.rangeErr
    else parseUintLoop cs (n * 10 + digitVal c)

/-- Model of `strconv.Atoi` on a 64-bit platform: an optional sign, at least one
decimal digit, nothing else, and a value that fits `int64`. -/
def Atoi (s : String) : Except Error Int :=
  let syntaxError : Error := "strconv.Atoi: parsing " ++ quote s ++ ": invalid syntax"
  let rangeError : Error := "strconv.Atoi: parsing " ++ quote s ++ ": value out of range"
  let neg : Bool := match s.data with
    | c :: _ => decide (c = '-')
    | [] => false
  let digits : List Char := match s.data with
    | c :: cs => if c = '-' ∨ c = '+' then cs else c :: cs
    | [] => []
  if digits = [] then .error syntaxError
  else
    match parseUintLoop digits 0 with
    | .error NumErr.syntaxErr => .error syntaxError
    | .error NumErr.rangeErr => .error rangeError
    | .ok un =>
      if !neg && un ≥ 2 ^ 63 then .error rangeError
      else if neg && un > 2 ^ 63 then .error rangeError
      else if neg then .ok (-(un : Int))
      else .ok (un : Int)

/-- `leadingInt` of package `time`: the leading digits as a number; `none` on overflow. -/
def leadingInt : List Char → Nat → Option (Nat × List Char)
  | [], x => some (x, [])
  | c :: cs, x =>
    if !isDigit c then some (x, c :: cs)
    else if x > 2 ^ 63 / 10 then none
    else if x * 10 + digitVal c > 2 ^ 63 then none
    else leadingInt cs (x * 10 + digitVal c)

/-- `leadingFraction` of package `time`: digits after the point as `(x, scale, rest)`;
digits beyond the precision of `uint64` are dropped. -/
def leadingFraction : List Char → Nat → Nat → Bool → Nat × Nat × List Char
  | [], x, scale, _ => (x, scale, [])
  | c :: cs, x, scale, overflow =>
    if !isDigit c then (x, scale, c :: cs)
    else if overflow then leadingFraction cs x scale true
    else if x > (2 ^ 63 - 1) / 10 then leadingFraction cs x scale true
    else if x * 10 + digitVal c > 2 ^ 63 then leadingFraction cs x scale true
    else leadingFraction cs (x * 10 + digitVal c) (scale * 10) false

/-- `unitMap` of package `time`: nanoseconds per unit. -/
def unitMap (u : String) : Option Nat :=
  if u = "ns" then some 1
  else if u = "us" then some 1000
  else if u = String.mk [Char.ofNat 181, 's'] then some 1000
  else if u = String.mk [Char.ofNat 956, 's'] then some 1000
  else if u = "ms" then some 1000000
  else if u = "s" then some 1000000000
  else if u = "m" then some 60000000000
  else if u = "h" then some 3600000000000
  else none

/-- Part of a unit name: neither a digit nor a point. -/
def isUnitChar (c : Char) : Bool := !(decide (c = '.') || isDigit c)

/-- The loop of `time.ParseDuration` over the `number unit` groups, accumulating
nanoseconds in a `uint64`. The fractional part of a group is added as the exact
quotient rounded down, where Go rounds a `float64` product. -/
def parseDurationLoop (orig : String) : Nat → List Char → Nat → Except Error Nat
  | 0, _, d => .ok d
  | fuel + 1, s, d =>
    let invalid : Error := "time: invalid duration " ++ quote orig
    match s with
    | [] => .ok d
    | c :: _ =>
      if !(decide (c = '.') || isDigit c) then .error invalid
      else
        match leadingInt s 0 with
        | none => .error invalid
        | some (v, s1) =>
          let pre : Bool := decide (s1.length ≠ s.length)
          let frac : Nat × Nat × List Char × Bool :=
            match s1 with
            | c1 :: r =>
              if c1 = '.' then
                let fr := leadingFraction r 0 1 false
                (fr.1, fr.2.1, fr.2.2, decide (fr.2.2.length ≠ r.length))
              else (0, 1, s1, false)
            | [] => (0, 1, s1, false)
          let f := frac.1
          let scale := frac.2.1
          let s2 := frac.2.2.1
          let post := frac.2.2.2
          if !pre && !post then .error invalid
          else
            let u := s2.takeWhile isUnitChar
            let s3 := s2.dropWhile isUnitChar
            if u = [] then .error ("time: missing unit in duration " ++ quote orig)
            else
              match unitMap (String.mk u) with
              | none =>
                .error ("time: unknown unit " ++ quote (String.mk u) ++ " in duration "
                  ++ quote orig)
              | some unit =>
                if v > 2 ^ 63 / unit then .error invalid
                else
                  let v1 := if f > 0 then v * unit + f * unit / scale else v * unit
                  if decide (f > 0) && decide (v1 > 2 ^ 63) then .error invalid
                  else
                    let d1 := (d + v1) % 2 ^ 64
                    if d1 > 2 ^ 63 then .error invalid
                    else parseDurationLoop orig fuel s3 d1

/-- Model of `time.ParseDuration`: `[-+]?([0-9]*(\.[0-9]*)?[a-z]+)+`, or `0`. -/
def ParseDuration (s : String) : Except Error Int :=
  let invalid : Error := "time: invalid duration " ++ quote s
  let neg : Bool := match s.data with
    | c :: _ => decide (c = '-')
    | [] => false
  let body : List Char := match s.data with
    | c :: cs => if c = '-' ∨ c = '+' then cs else c :: cs
    | [] => []
  if body = ['0'] then .ok 0
  else if body = [] then .error invalid
  else
    match parseDurationLoop s (body.length + 1) body 0 with
    | .error err => .error err
    | .ok d =>
      if neg then .ok (-(d : Int))
      else if d > 2 ^ 63 - 1 then .error invalid
      else .ok (d : Int)

/-- The escaping contexts of `net/url` that `Parse` uses. -/
inductive Mode where
  | path
  | host
  | zone
  | userPassword
  | fragment
deriving DecidableEq

/-- An ASCII letter. -/
def isAlpha (c : Char) : Bool :=
  (decide (65 ≤ c.toNat) && decide (c.toNat ≤ 90)) ||
    (decide (97 ≤ c.toNat) && decide (c.toNat ≤ 122))

/-- A hexadecimal digit. -/
def isHex (c : Char) : Bool :=
  isDigit c || (decide (65 ≤ c.toNat) && decide (c.toNat ≤ 70)) ||
    (decide (97 ≤ c.toNat) && decide (c.toNat ≤ 102))

/-- The value of a hexadecimal digit. -/
def unhex (c : Char) : Nat :=
  if isDigit c then c.toNat - 48
  else if decide (97 ≤ c.toNat) && decide (c.toNat ≤ 102) then c.toNat - 97 + 10
  else if decide (65 ≤ c.toNat) && decide (c.toNat ≤ 70) then c.toNat - 65 + 10
  else 0

/-- The ASCII codes that `shouldEscape(c, encodeHost)` lets through unescaped: letters,
digits, the sub-delimiters, `: [ ] < >`, the double quote, and `- _ . ~`. -/
def hostByteOk (n : Nat) : Bool :=
  (decide (48 ≤ n) && decide (n ≤ 57)) || (decide (65 ≤ n) && decide (n ≤ 90)) ||
    (decide (97 ≤ n) && decide (n ≤ 122)) ||
    [33, 36, 38, 39, 40, 41, 42, 43, 44, 59, 61, 58, 91, 93, 60, 62, 34, 45, 95, 46, 126].contains n

/-- The checking pass of `unescape(s, mode)`: `none` when every `%` starts a valid escape
and, for a host, every ASCII character is allowed; otherwise the error. -/
def escapeError (mode : Mode) : List Char → Option Error
  | [] => none
  | c :: cs =>
    if c = '%' then
      match cs with
      | h1 :: h2 :: r =>
        if !(isHex h1 && isHex h2) then
          some ("invalid URL escape " ++ quote (String.mk [c, h1, h2]))
        else if decide (mode = Mode.host) && decide (unhex h1 < 8) &&
            !(decide (h1 = '2') && decide (h2 = '5')) then
          some ("invalid URL escape " ++ quote (String.mk [c, h1, h2]))
        else if decide (mode = Mode.zone) && !(decide (h1 = '2') && decide (h2 = '5')) &&
            decide (unhex h1 * 16 + unhex h2 ≠ 32) &&
            !hostByteOk (unhex h1 * 16 + unhex h2) then
          some ("invalid URL escape " ++ quote (String.mk [c, h1, h2]))
        else escapeError mode r
      | rest => some ("invalid URL escape " ++ quote (String.mk (c :: rest)))
    else if (decide (mode = Mode.host) || decide (mode = Mode.zone)) &&
        decide (c.toNat < 128) && !hostByteOk c.toNat then
      some ("invalid character " ++ quote (String.mk [c]) ++ " in host name")
    else escapeError mode cs

/-- The function `getScheme` of `net/url`: the scheme before the first colon, if the text
up to there is a scheme, and the rest. -/
def getScheme (rawURL : List Char) : List Char → Nat → Except Error (List Char × List Char)
  | [], _ => .ok ([], rawURL)
  | c :: cs, i =>
    if isAlpha c then getScheme rawURL cs (i + 1)
    else if isDigit c || decide (c = '+') || decide (c = '-') || decide (c = '.') then
      if i = 0 then .ok ([], rawURL) else getScheme rawURL cs (i + 1)
    else if c = ':' then
      if i = 0 then .error "missing protocol scheme" else .ok (rawURL.take i, cs)
    else .ok ([], rawURL)

/-- `validOptionalPort`: empty, or a colon followed by digits only. -/
def validOptionalPort (port : List Char) : Bool :=
  match port with
  | [] => true
  | c :: ds => decide (c = ':') && ds.all isDigit

/-- Index of the last occurrence of `c` in `s` (as `strings.LastIndex`), if any. -/
def lastIndex (c : Char) (s : List Char) : Option Nat :=
  if s.contains c then some (s.length - 1 - (s.reverse.takeWhile (fun x => x ≠ c)).length)
  else none

/-- Index of the first occurrence of the text `%25` in `s`, if any. -/
def indexZone : List Char → Nat → Option Nat
  | [], _ => none
  | c :: cs, i =>
    if c = '%' ∧ cs.take 2 = ['2', '5'] then some i else indexZone cs (i + 1)

/-- The function `parseHost` of `net/url`. Escapes are checked and left as they are. -/
def parseHost (host : List Char) : Except Error (List Char) :=
  let check (h : List Char) : Except Error (List Char) :=
    match escapeError Mode.host h with
    | some err => .error err
    | none => .ok h
  if host.head? = some '[' then
    match lastIndex ']' host with
    | none => .error "missing ']' in host"
    | some i =>
      if !validOptionalPort (host.drop (i + 1)) then
        .error ("invalid port " ++ quote (String.mk (host.drop (i + 1))) ++ " after host")
      else
        match indexZone (host.take i) 0 with
        | some z =>
          match escapeError Mode.host (host.take z),
            escapeError Mode.zone ((host.take i).drop z),
            escapeError Mode.host (host.drop i) with
          | none, none, none => .ok host
          | some err, _, _ => .error err
          | none, some err, _ => .error err
          | none, none, some err => .error err
        | none => check host
  else
    match lastIndex ':' host with
    | some i =>
      if !validOptionalPort (host.drop i) then
        .error ("invalid port " ++ quote (String.mk (host.drop i)) ++ " after host")
      else check host
    | none => check host

/-- The characters `validUserinfo` accepts. -/
def userinfoCharOk (c : Char) : Bool :=
  isAlpha c || isDigit c ||
    [45, 46, 95, 58, 126, 33, 36, 38, 39, 40, 41, 42, 43, 44, 59, 61, 37, 64].contains c.toNat

/-- The function `parseAuthority` of `net/url`, returning the host. -/
def parseAuthority (authority : List Char) : Except Error (List Char) :=
  match lastIndex '@' authority with
  | none => parseHost authority
  | some i =>
    match parseHost (authority.drop (i + 1)) with
    | .error err => .error err
    | .ok host =>
      if !(authority.take i).all userinfoCharOk then .error "net/url: invalid userinfo"
      else
        match escapeError Mode.userPassword (authority.take i) with
        | some err => .error err
        | none => .ok host

/-- ASCII lower case. -/
def lowerChar (c : Char) : Char :=
  if decide (65 ≤ c.toNat) && decide (c.toNat ≤ 90) then Char.ofNat (c.toNat + 32) else c

/-- The function `parse(rawURL, false)` of `net/url`, on the text before the fragment.
Percent-escapes in host, path and fragment are checked but left undecoded. -/
def parseNoFragment (rawURL : List Char) : Except Error URL :=
  if rawURL.any (fun c => decide (c.toNat < 32) || decide (c.toNat = 127)) then
    .error "net/url: invalid control character in URL"
  else if rawURL = ['*'] then .ok ⟨"", "", "", "*", "", ""⟩
  else
    match getScheme rawURL rawURL 0 with
    | .error err => .error err
    | .ok (scheme0, rest0) =>
      let scheme := String.mk (scheme0.map lowerChar)
      let forceQuery : Bool :=
        decide (rest0.getLast? = some '?') && decide (rest0.count '?' = 1)
      let rest1 := if forceQuery then rest0.dropLast else rest0.takeWhile (fun x => x ≠ '?')
      let rawQuery :=
        if forceQuery then [] else (rest0.dropWhile (fun x => x ≠ '?')).drop 1
      if rest1.head? ≠ some '/' ∧ scheme ≠ "" then
        .ok ⟨scheme, String.mk rest1, "", "", String.mk rawQuery, ""⟩
      else if rest1.head? ≠ some '/' ∧ (rest1.takeWhile (fun x => x ≠ '/')).contains ':' then
        .error "first path segment in URL cannot contain colon"
      else
        let hasAuthority : Bool :=
          (decide (scheme ≠ "") || !decide (rest1.take 3 = ['/', '/', '/'])) &&
            decide (rest1.take 2 = ['/', '/'])
        let authority := (rest1.drop 2).takeWhile (fun x => x ≠ '/')
        let rest2 := if hasAuthority then (rest1.drop 2).dropWhile (fun x => x ≠ '/') else rest1
        match (if hasAuthority then parseAuthority authority else .ok []) with
        | .error err => .error err
        | .ok host =>
          match escapeError Mode.path rest2 with
          | some err => .error err
          | none => .ok ⟨scheme, "", String.mk host, String.mk rest2, String.mk rawQuery, ""⟩

/-- Model of `net/url.Parse`. Errors carry the operation and the text parsed, as
`url.Error` prints them. -/
def urlParse (rawURL : String) : Except Error URL :=
  let u := rawURL.data.takeWhile (fun x => x ≠ '#')
  let frag := (rawURL.data.dropWhile (fun x => x ≠ '#')).drop 1
  match parseNoFragment u with
  | .error err => .error ("parse " ++ quote (String.mk u) ++ ": " ++ err)
  | .ok url =>
    if frag = [] then .ok url
    else
      match escapeError Mode.fragment frag with
      | some err => .error ("parse " ++ quote rawURL ++ ": " ++ err)
      | none => .ok { url with fragment := String.mk frag }

/-! ## Concrete worlds and helper notions for the statements -/

/-- A libvlc that sets up without error and starts playing; `playing` and `rate` give
the answers of `IsPlaying()` and the `DemuxBitRate` read in each iteration. -/
def vlcOf (playing : Nat → Bool) (rate : Nat → ℚ) : Vlc :=
  { init := none, newPlayer := none, loadMedia := none, play := none, starts := true,
    playing := playing, stats := fun i => .ok (rate i) }

/-- A world with the standard library models above, the given libvlc for every URL, a
resolver that resolves every name, and an echo reply after 12 ms. -/
def worldOf (v : Vlc) (o : Order) : World :=
  { parseDuration := ParseDuration, atoi := Atoi, urlParse := urlParse,
    vlc := fun _ => v, resolveIPAddr := fun _ => none,
    ping := fun _ => ⟨some 12, none⟩, order := o }

/-- The sample `DemuxBitRate * 8` taken in iteration `i` (0 if the read fails). -/
def sampleAt (v : Vlc) (i : Nat) : ℚ :=
  match v.stats i with
  | .ok demuxBitRate => demuxBitRate * 8
  | .error _ => 0

/-- Whether `media.Stats()` succeeds in iteration `i`. -/
def readOk (v : Vlc) (i : Nat) : Bool :=
  match v.stats i with
  | .ok _ => true
  | .error _ => false

/-- The non-zero samples among the first `n` samples, in the order read. -/
def nonZeroSamples (v : Vlc) (n : Nat) : List ℚ :=
  ((List.range n).map (sampleAt v)).filter (fun x => decide (x ≠ 0))

/-- The number of samples that read as zero among the first `n` samples. -/
def zeroSamples (v : Vlc) (n : Nat) : Nat :=
  (((List.range n).map (sampleAt v)).filter (fun x => decide (x = 0))).length

/-- The setup of `getBitrate` succeeds and playback starts, so the sampling loop is
entered. -/
def Vlc.Ready (v : Vlc) : Prop :=
  v.init = none ∧ v.newPlayer = none ∧ v.loadMedia = none ∧ v.play = none ∧ v.starts = true

/-- The sampling loop makes exactly `n` reads, all successful, and then ends: the player
is playing at the first `n` tests, the counter does not reach `streamingTime` before the
last read, and after the `n`-th read either the counter equals `streamingTime` (the loop
stops the player) or the player has stopped by itself. -/
def EndsAfter (v : Vlc) (streamingTime : Int) (n : Nat) : Prop :=
  (∀ i, i < n → v.playing i = true) ∧
  (∀ i, i < n → readOk v i = true) ∧
  (∀ i, i < n → 0 < i → ((nonZeroSamples v i).length : Int) ≠ streamingTime) ∧
  ((0 < n ∧ ((nonZeroSamples v n).length : Int) = streamingTime) ∨ v.playing n = false)

/-- A stream that plays for three seconds at a demux bit rate of 100 and then ends. -/
def shortStream : Vlc := vlcOf (fun i => decide (i < 3)) (fun _ => 100)

/-- A stream that keeps playing at a demux bit rate of 100. -/
def steadyStream : Vlc := vlcOf (fun _ => true) (fun _ => 100)

/-- A libvlc whose initialisation fails. -/
def brokenVlc : Vlc :=
  { init := some "vlc: init failed", newPlayer := none, loadMedia := none, play := none,
    starts := true, playing := fun _ => true, stats := fun _ => .ok 100 }

/-- The stream address used in the examples. -/
def goodTarget : String := "rtmp://good.example/live"

/-- A stream whose demux bit rate reads as zero for three seconds and which then ends. -/
def silentStream : Vlc := vlcOf (fun i => decide (i < 3)) (fun _ => 0)

/-- A stream that keeps playing; its first sample reads as zero, the later ones 100. -/
def hiccupStream : Vlc := vlcOf (fun _ => true) (fun i => if i = 0 then 0 else 100)

/-- A playing stream for which `media.Stats()` fails. -/
def statsFailVlc : Vlc :=
  { init := none, newPlayer := none, loadMedia := none, play := none, starts := true,
    playing := fun _ => true, stats := fun _ => .error "stats failed" }

/-! ## General facts -/

theorem Seconds_eq_zero_iff (d : Int) : Seconds d = 0 ↔ d = 0 := by
  have h := Int.tdiv_add_tmod d Second
  have hq : ((Second : ℚ)) * ((Int.tdiv d Second : Int) : ℚ) + ((Int.tmod d Second : Int) : ℚ)
      = (d : ℚ) := by exact_mod_cast h
  have hS : ((Second : Int) : ℚ) = 1000000000 := by simp [Second]
  have hsec : Seconds d = (d : ℚ) / 1000000000 := by
    unfold Seconds
    rw [← hq, hS]
    field_simp
    ring
  rw [hsec]
  constructor
  · intro h0
    have : (d : ℚ) = 0 := by
      rcases div_eq_zero_iff.mp h0 with h1 | h1
      · exact h1
      · norm_num at h1
    exact_mod_cast this
  · intro h0
    simp [h0]

theorem worldOf_order (v : Vlc) (o : Order) : (worldOf v o).order = o := rfl

theorem worldOf_vlc (v : Vlc) (o : Order) (url : String) : (worldOf v o).vlc url = v := rfl

theorem getLatency_goodTarget (v : Vlc) (o : Order) :
    getLatency (worldOf v o) goodTarget = ⟨F64.num 12, none, some "good.example"⟩ := by
  have h1 : urlParse goodTarget = .ok ⟨"rtmp", "", "good.example", "/live", "", ""⟩ := by
    decide
  have h2 : (stringsSplit "good.example" ':').headD "" = "good.example" := by decide
  simp only [getLatency, parseDomainFromUrl, worldOf, h1, h2]
  simp

theorem getBitrate_shortStream (st : Int) (hst : st < 0) :
    getBitrate shortStream st 4 = some ⟨F64.num 800, none, 3⟩ := by
  have h1 : ((1 : Nat) : Int) ≠ st := by omega
  have h2 : ((2 : Nat) : Int) ≠ st := by omega
  have h3 : ((3 : Nat) : Int) ≠ st := by omega
  simp [getBitrate, shortStream, vlcOf, sampleLoop, fdiv]
  norm_num at h1 h2 h3
  simp [h1, h2, h3]
  norm_num

theorem getBitrate_steadyStream :
    getBitrate steadyStream 2 3 = some ⟨F64.num 800, none, 2⟩ := by
  simp [getBitrate, steadyStream, vlcOf, sampleLoop, fdiv]
  norm_num

theorem getBitrate_brokenVlc (st : Int) (fuel : Nat) :
    getBitrate brokenVlc st fuel = some ⟨F64.num 0, some "vlc: init failed", 0⟩ := by
  simp [getBitrate, brokenVlc]

theorem runAnalysis_steadyStream (o : Order) :
    runAnalysis (worldOf steadyStream o) goodTarget 2 3
      = some (F64.num 800, F64.num 12, none) := by
  have hb : getBitrate ((worldOf steadyStream o).vlc goodTarget) 2 3
      = some ⟨F64.num 800, none, 2⟩ := getBitrate_steadyStream
  cases o <;>
    simp [runAnalysis, hb, getLatency_goodTarget, storeBitrate, storeLatency, worldOf_order]

/-! ## C1: the metrics sent by `Collect` -/

/-- C1. Whatever `runAnalysis` returns, `Collect` sends one of two metric sets: without
an error the success gauge with value 1 followed by the bitrate and latency gauges with
the returned values; with an error the success gauge with value 0 and nothing else. -/
theorem collect_emits_one_of_two_sets (e : Exporter) (w : World) (fuel n : Nat)
    (bitrate latency : F64) (err : Option Error)
    (h : runAnalysis w e.target e.streamingTime fuel = some (bitrate, latency, err)) :
    ∃ c, e.Collect w fuel n = some c ∧
      (err = none →
        c.metrics = [⟨e.success, F64.num 1⟩, ⟨e.bitrate, bitrate⟩, ⟨e.latency, latency⟩]) ∧
      (err ≠ none → c.metrics = [⟨e.success, F64.num 0⟩]) ∧
      (c.metrics.filter (fun m => decide (m.desc = e.success))).length ≥ 1 := by
  cases err with
  | none => simp [Exporter.Collect, h]
  | some x => simp [Exporter.Collect, h]

theorem collect_emits_one_of_two_sets_witness :
    runAnalysis (worldOf steadyStream Order.bitrateFirst)
        (NewExporter goodTarget 5000000000 2).target
        (NewExporter goodTarget 5000000000 2).streamingTime 3
      = some (F64.num 800, F64.num 12, none) ∧
    ∃ c, (NewExporter goodTarget 5000000000 2).Collect
        (worldOf steadyStream Order.bitrateFirst) 3 0 = some c ∧
      ((none : Option Error) = none →
        c.metrics = [⟨(NewExporter goodTarget 5000000000 2).success, F64.num 1⟩,
          ⟨(NewExporter goodTarget 5000000000 2).bitrate, F64.num 800⟩,
          ⟨(NewExporter goodTarget 5000000000 2).latency, F64.num 12⟩]) ∧
      ((none : Option Error) ≠ none →
        c.metrics = [⟨(NewExporter goodTarget 5000000000 2).success, F64.num 0⟩]) ∧
      (c.metrics.filter
        (fun m => decide (m.desc = (NewExporter goodTarget 5000000000 2).success))).length
          ≥ 1 :=
  ⟨runAnalysis_steadyStream Order.bitrateFirst,
    collect_emits_one_of_two_sets (NewExporter goodTarget 5000000000 2)
      (worldOf steadyStream Order.bitrateFirst) 3 0 (F64.num 800) (F64.num 12) none
      (runAnalysis_steadyStream Order.bitrateFirst)⟩

/-! ## C2: the join of the two probes -/

/-- C2 fails on the code. The bitrate probe fails (libvlc does not initialise), the
latency probe succeeds with 12 ms, and the bitrate goroutine stores its result first:
the later store of the latency goroutine overwrites the shared `err` with `nil`, and
`runAnalysis` returns bitrate 0, latency 12 and no error. -/
theorem runAnalysis_loses_bitrate_error :
    getBitrate ((worldOf brokenVlc Order.bitrateFirst).vlc goodTarget) 5 1
      = some ⟨F64.num 0, some "vlc: init failed", 0⟩ ∧
    (getLatency (worldOf brokenVlc Order.bitrateFirst) goodTarget).err = none ∧
    runAnalysis (worldOf brokenVlc Order.bitrateFirst) goodTarget 5 1
      = some (F64.num 0, F64.num 12, none) := by
  have hb : getBitrate ((worldOf brokenVlc Order.bitrateFirst).vlc goodTarget) 5 1
      = some ⟨F64.num 0, some "vlc: init failed", 0⟩ := getBitrate_brokenVlc 5 1
  refine ⟨hb, ?_, ?_⟩
  · rw [getLatency_goodTarget]
  · simp [runAnalysis, hb, getLatency_goodTarget, storeBitrate, storeLatency, worldOf_order]

/-! ## C3, C4, C5: validation and defaults in `handler` -/

theorem handler_accepted (w : World) (q : Query) (fuel n : Nat) (d k : Int)
    (ht : q.target ≠ "")
    (hp : (if q.period ≠ "" then w.parseDuration q.period else .ok 0) = .ok d)
    (hs : (if q.streamingTime ≠ "" then w.atoi q.streamingTime else .ok 0) = .ok k) :
    (handler w q fuel n).exporter
        = some (NewExporter q.target (if d = 0 then Second * 5 else d) (if k = 0 then 5 else k)) ∧
      (handler w q fuel n).status ≠ StatusBadRequest := by
  unfold handler
  simp only [ht, if_false, hp, hs, Seconds_eq_zero_iff]
  cases hc : (NewExporter q.target (if d = 0 then Second * 5 else d)
      (if k = 0 then 5 else k)).Collect w fuel n with
  | none => simp [StatusBadRequest]
  | some c => simp [StatusBadRequest]

theorem handler_not_rejected (w : World) (q : Query) (fuel n : Nat)
    (h : (handler w q fuel n).status ≠ 400) :
    q.target ≠ "" ∧ ∃ d k,
      (if q.period ≠ "" then w.parseDuration q.period else .ok 0) = .ok d ∧
      (if q.streamingTime ≠ "" then w.atoi q.streamingTime else .ok 0) = .ok k := by
  by_cases ht : q.target = ""
  · simp [handler, ht, StatusBadRequest] at h
  · refine ⟨ht, ?_⟩
    cases hp : (if q.period ≠ "" then w.parseDuration q.period else .ok 0) with
    | error err =>
      simp only [handler, ht, if_false, hp, StatusBadRequest] at h
      exact absurd rfl h
    | ok d =>
      cases hs : (if q.streamingTime ≠ "" then w.atoi q.streamingTime else .ok 0) with
      | error err =>
        simp only [handler, ht, if_false, hp, hs, StatusBadRequest] at h
        exact absurd rfl h
      | ok k => exact ⟨d, k, rfl, rfl⟩

/-- C3. An empty target, a non-empty period that `time.ParseDuration` rejects, or a
non-empty streamingTime that `strconv.Atoi` rejects makes `handler` answer 400 with the
message of the first failing rule (in the order target, period, streamingTime), add
exactly one to `ssErrors`, and return without building an `Exporter` or starting a
scrape. -/
theorem handler_rejects_invalid (w : World) (q : Query) (fuel n : Nat) :
    (q.target = "" →
      handler w q fuel n
        = ⟨400, "'target' parameter must be specified", n + 1, none, Scrape.notStarted⟩) ∧
    (∀ err, q.target ≠ "" → q.period ≠ "" → w.parseDuration q.period = .error err →
      handler w q fuel n
        = ⟨400, "'period' parameter must be a duration: " ++ err, n + 1, none,
            Scrape.notStarted⟩) ∧
    (∀ err, q.target ≠ "" → (q.period = "" ∨ ∃ d, w.parseDuration q.period = .ok d) →
      q.streamingTime ≠ "" → w.atoi q.streamingTime = .error err →
      handler w q fuel n
        = ⟨400, "'streamingTime' parameter must be an integer: " ++ err, n + 1, none,
            Scrape.notStarted⟩) := by
  refine ⟨?_, ?_, ?_⟩
  · intro ht
    simp [handler, ht, StatusBadRequest]
  · intro err ht hp he
    simp [handler, ht, hp, he, StatusBadRequest]
  · intro err ht hp hs he
    rcases hp with hp | ⟨d, hd⟩
    · simp [handler, ht, hp, hs, he, StatusBadRequest]
    · by_cases hpe : q.period = ""
      · simp [handler, ht, hpe, hs, he, StatusBadRequest]
      · simp [handler, ht, hpe, hd, hs, he, StatusBadRequest]

theorem handler_rejects_invalid_witness :
    handler (worldOf steadyStream Order.bitrateFirst) ⟨"", "notaduration", "x"⟩ 3 7
      = ⟨400, "'target' parameter must be specified", 8, none, Scrape.notStarted⟩ ∧
    handler (worldOf steadyStream Order.bitrateFirst) ⟨goodTarget, "notaduration", "x"⟩ 3 7
      = ⟨400, "'period' parameter must be a duration: "
            ++ ("time: invalid duration " ++ quote "notaduration"), 8, none,
          Scrape.notStarted⟩ ∧
    handler (worldOf steadyStream Order.bitrateFirst) ⟨goodTarget, "10s", "x"⟩ 3 7
      = ⟨400, "'streamingTime' parameter must be an integer: "
            ++ ("strconv.Atoi: parsing " ++ quote "x" ++ ": invalid syntax"), 8, none,
          Scrape.notStarted⟩ :=
  ⟨(handler_rejects_invalid (worldOf steadyStream Order.bitrateFirst)
      ⟨"", "notaduration", "x"⟩ 3 7).1 rfl,
    (handler_rejects_invalid (worldOf steadyStream Order.bitrateFirst)
      ⟨goodTarget, "notaduration", "x"⟩ 3 7).2.1 _ (by decide) (by decide) (by decide),
    (handler_rejects_invalid (worldOf steadyStream Order.bitrateFirst)
      ⟨goodTarget, "10s", "x"⟩ 3 7).2.2 _ (by decide)
      (Or.inr ⟨10000000000, by decide⟩) (by decide) (by decide)⟩

/-- C4 as stated fails: `streamingTime=-3` is accepted (`strconv.Atoi` parses it and
the only value replaced is 0), and the `Exporter` is built with `streamingTime = -3`. -/
theorem handler_accepts_negative_streamingTime :
    (handler (worldOf shortStream Order.bitrateFirst) ⟨goodTarget, "", "-3"⟩ 4 0).status
        = 200 ∧
    (handler (worldOf shortStream Order.bitrateFirst) ⟨goodTarget, "", "-3"⟩ 4 0).exporter
        = some (NewExporter goodTarget 5000000000 (-3)) ∧
    ¬ (1 : Int) ≤ (NewExporter goodTarget 5000000000 (-3)).streamingTime := by
  have hb : getBitrate ((worldOf shortStream Order.bitrateFirst).vlc goodTarget) (-3) 4
      = some ⟨F64.num 800, none, 3⟩ := getBitrate_shortStream (-3) (by decide)
  have ha : Atoi "-3" = .ok (-3) := by decide
  have hw : (worldOf shortStream Order.bitrateFirst).atoi = Atoi := rfl
  have hg : goodTarget ≠ "" := by decide
  refine ⟨?_, ?_, by decide⟩
  · simp [handler, hg, hw, ha, NewExporter, Exporter.Collect, runAnalysis, hb,
      getLatency_goodTarget, storeBitrate, storeLatency, worldOf_order]
  · simp [handler, hg, hw, ha, NewExporter, Exporter.Collect, runAnalysis, hb,
      getLatency_goodTarget, storeBitrate, storeLatency, worldOf_order, Seconds, Second]

/-- C4, amended. For every query that `handler` does not answer with 400 an `Exporter`
is built and its `streamingTime` is a non-zero integer: 5 when the parameter is absent
or parses to 0, and otherwise exactly the integer `strconv.Atoi` returned, whatever its
sign. -/
theorem handler_streamingTime_nonzero (w : World) (q : Query) (fuel n : Nat)
    (h : (handler w q fuel n).status ≠ 400) :
    ∃ e, (handler w q fuel n).exporter = some e ∧ e.streamingTime ≠ 0 ∧
      ((q.streamingTime = "" ∧ e.streamingTime = 5) ∨
        (∃ k, q.streamingTime ≠ "" ∧ w.atoi q.streamingTime = .ok k ∧
          e.streamingTime = if k = 0 then 5 else k)) := by
  obtain ⟨_, d, k, hp, hs⟩ := handler_not_rejected w q fuel n h
  have ht : q.target ≠ "" := by assumption
  refine ⟨_, (handler_accepted w q fuel n d k ht hp hs).1, ?_, ?_⟩
  · simp only [NewExporter]
    split_ifs with hk
    · decide
    · exact hk
  · by_cases hse : q.streamingTime = ""
    · left
      simp only [hse, ne_eq, not_true_eq_false, if_false] at hs
      have hk : k = 0 := by
        cases hs
        rfl
      exact ⟨hse, by simp [NewExporter, hk]⟩
    · right
      simp only [hse, ne_eq, not_false_eq_true, if_true] at hs
      exact ⟨k, hse, hs, by simp [NewExporter]⟩

theorem handler_streamingTime_nonzero_witness :
    (handler (worldOf shortStream Order.bitrateFirst) ⟨goodTarget, "", "-3"⟩ 4 0).status
        ≠ 400 ∧
    ∃ e, (handler (worldOf shortStream Order.bitrateFirst) ⟨goodTarget, "", "-3"⟩ 4 0).exporter
          = some e ∧ e.streamingTime ≠ 0 ∧
      (((⟨goodTarget, "", "-3"⟩ : Query).streamingTime = "" ∧ e.streamingTime = 5) ∨
        (∃ k, (⟨goodTarget, "", "-3"⟩ : Query).streamingTime ≠ "" ∧
          (worldOf shortStream Order.bitrateFirst).atoi
            (⟨goodTarget, "", "-3"⟩ : Query).streamingTime = .ok k ∧
          e.streamingTime = if k = 0 then 5 else k)) :=
  have h : (handler (worldOf shortStream Order.bitrateFirst)
      ⟨goodTarget, "", "-3"⟩ 4 0).status ≠ 400 :=
    (handler_accepted (worldOf shortStream Order.bitrateFirst) ⟨goodTarget, "", "-3"⟩ 4 0
      0 (-3) (by decide) (by decide) (by decide)).2
  ⟨h, handler_streamingTime_nonzero (worldOf shortStream Order.bitrateFirst)
    ⟨goodTarget, "", "-3"⟩ 4 0 h⟩

/-- C5. For a query with a non-empty target whose period and streamingTime are each
absent or accepted by their parser, `handler` builds the `Exporter` with that target,
with period 5 s when the period is absent or parses to zero and the parsed duration
otherwise, and with streamingTime 5 when it is absent or parses to 0 and the parsed
integer otherwise. -/
theorem handler_defaults (w : World) (q : Query) (fuel n : Nat)
    (ht : q.target ≠ "")
    (hp : q.period = "" ∨ ∃ d, w.parseDuration q.period = .ok d)
    (hs : q.streamingTime = "" ∨ ∃ k, w.atoi q.streamingTime = .ok k) :
    ∃ e, (handler w q fuel n).exporter = some e ∧ e.target = q.target ∧
      ((q.period = "" ∨ w.parseDuration q.period = .ok 0) → e.period = 5000000000) ∧
      (∀ d, q.period ≠ "" → w.parseDuration q.period = .ok d → d ≠ 0 → e.period = d) ∧
      ((q.streamingTime = "" ∨ w.atoi q.streamingTime = .ok 0) → e.streamingTime = 5) ∧
      (∀ k, q.streamingTime ≠ "" → w.atoi q.streamingTime = .ok k → k ≠ 0 →
        e.streamingTime = k) := by
  obtain ⟨d, hd, hd0, hd1⟩ : ∃ d,
      (if q.period ≠ "" then w.parseDuration q.period else .ok 0) = .ok d ∧
      ((q.period = "" ∨ w.parseDuration q.period = .ok 0) → d = 0) ∧
      (∀ d1, q.period ≠ "" → w.parseDuration q.period = .ok d1 → d = d1) := by
    by_cases hpe : q.period = ""
    · exact ⟨0, by simp [hpe], fun _ => rfl, fun d1 hne => absurd hpe hne⟩
    · rcases hp with hp | ⟨d, hd⟩
      · exact absurd hp hpe
      · refine ⟨d, by simp [hpe, hd], ?_, ?_⟩
        · rintro (h0 | h0)
          · exact absurd h0 hpe
          · rw [hd] at h0
            cases h0
            rfl
        · intro d1 _ h1
          rw [hd] at h1
          cases h1
          rfl
  obtain ⟨k, hk, hk0, hk1⟩ : ∃ k,
      (if q.streamingTime ≠ "" then w.atoi q.streamingTime else .ok 0) = .ok k ∧
      ((q.streamingTime = "" ∨ w.atoi q.streamingTime = .ok 0) → k = 0) ∧
      (∀ k1, q.streamingTime ≠ "" → w.atoi q.streamingTime = .ok k1 → k = k1) := by
    by_cases hse : q.streamingTime = ""
    · exact ⟨0, by simp [hse], fun _ => rfl, fun k1 hne => absurd hse hne⟩
    · rcases hs with hs | ⟨k, hk⟩
      · exact absurd hs hse
      · refine ⟨k, by simp [hse, hk], ?_, ?_⟩
        · rintro (h0 | h0)
          · exact absurd h0 hse
          · rw [hk] at h0
            cases h0
            rfl
        · intro k1 _ h1
          rw [hk] at h1
          cases h1
          rfl
  refine ⟨_, (handler_accepted w q fuel n d k ht hd hk).1, rfl, ?_, ?_, ?_, ?_⟩
  · intro h
    simp [NewExporter, hd0 h, Second]
  · intro d1 hne h1 hnz
    have := hd1 d1 hne h1
    subst this
    simp [NewExporter, hnz]
  · intro h
    simp [NewExporter, hk0 h]
  · intro k1 hne h1 hnz
    have := hk1 k1 hne h1
    subst this
    simp [NewExporter, hnz]

theorem handler_defaults_witness :
    (⟨goodTarget, "0s", "7"⟩ : Query).target ≠ "" ∧
    ∃ e, (handler (worldOf steadyStream Order.latencyFirst) ⟨goodTarget, "0s", "7"⟩ 3 0).exporter
          = some e ∧ e.target = goodTarget ∧
      (("0s" = "" ∨ ParseDuration "0s" = .ok 0) → e.period = 5000000000) ∧
      (∀ d, "0s" ≠ "" → ParseDuration "0s" = .ok d → d ≠ 0 → e.period = d) ∧
      (("7" = "" ∨ Atoi "7" = .ok 0) → e.streamingTime = 5) ∧
      (∀ k, "7" ≠ "" → Atoi "7" = .ok k → k ≠ 0 → e.streamingTime = k) :=
  ⟨by decide,
    handler_defaults (worldOf steadyStream Order.latencyFirst) ⟨goodTarget, "0s", "7"⟩ 3 0
      (by decide) (Or.inr ⟨0, by decide⟩) (Or.inr ⟨7, by decide⟩)⟩

/-! ## The sampling loop of `getBitrate` -/

theorem nonZeroSamples_succ (v : Vlc) (k : Nat) :
    nonZeroSamples v (k + 1)
      = nonZeroSamples v k ++ (if sampleAt v k ≠ 0 then [sampleAt v k] else []) := by
  unfold nonZeroSamples
  rw [List.range_succ, List.map_append, List.filter_append]
  by_cases h : sampleAt v k = 0
  · simp [h]
  · simp [h]

theorem zeroSamples_succ (v : Vlc) (k : Nat) :
    zeroSamples v (k + 1) = zeroSamples v k + (if sampleAt v k = 0 then 1 else 0) := by
  unfold zeroSamples
  rw [List.range_succ, List.map_append, List.filter_append, List.length_append]
  by_cases h : sampleAt v k = 0
  · simp [h]
  · simp [h]

theorem nonZero_add_zero (v : Vlc) (n : Nat) :
    (nonZeroSamples v n).length + zeroSamples v n = n := by
  induction n with
  | zero => simp [nonZeroSamples, zeroSamples]
  | succ k ih =>
    rw [nonZeroSamples_succ, zeroSamples_succ, List.length_append]
    by_cases h : sampleAt v k = 0
    · simp [h]
      omega
    · simp [h]
      omega

theorem nonZeroSamples_length_mono (v : Vlc) (i j : Nat) (h : i ≤ j) :
    (nonZeroSamples v i).length ≤ (nonZeroSamples v j).length := by
  induction j with
  | zero =>
    have : i = 0 := by omega
    subst this
    exact le_refl _
  | succ k ih =>
    by_cases hik : i = k + 1
    · subst hik
      exact le_refl _
    · have h1 := ih (by omega)
      rw [nonZeroSamples_succ, List.length_append]
      omega

theorem stats_of_readOk (v : Vlc) (i : Nat) (h : readOk v i = true) :
    ∃ r, v.stats i = .ok r ∧ sampleAt v i = r * 8 := by
  unfold readOk at h
  unfold sampleAt
  cases hs : v.stats i with
  | ok r => exact ⟨r, rfl, rfl⟩
  | error e => simp [hs] at h

/-- A run of the sampling loop that makes `n` successful reads and then ends returns the
quotient of the sum of the non-zero samples by their number, given fuel for `n + 1`
tests of the loop condition. -/
theorem sampleLoop_ends (v : Vlc) (st : Int) (n : Nat) (h : EndsAfter v st n) :
    ∀ (fuel k : Nat) (stopped : Bool), k ≤ n → n - k < fuel →
      (stopped = true → k = n) →
      (stopped = false → k = n → v.playing n = false) →
      sampleLoop v st fuel k stopped (nonZeroSamples v k).length (nonZeroSamples v k).sum
        = some ⟨fdiv (nonZeroSamples v n).sum (nonZeroSamples v n).length, none, n⟩ := by
  intro fuel
  induction fuel with
  | zero =>
    intro k stopped _ hf
    omega
  | succ fuel ih =>
    intro k stopped hk hf hstop hrun
    rw [sampleLoop]
    cases stopped with
    | true =>
      have hkn := hstop rfl
      subst hkn
      simp
    | false =>
      by_cases hkn : k = n
      · have hp := hrun rfl hkn
        subst hkn
        simp [hp]
      · have hlt : k < n := by omega
        have hp := h.1 k hlt
        obtain ⟨r, hr, hsa⟩ := stats_of_readOk v k (h.2.1 k hlt)
        have hlen : (if r * 8 ≠ 0 then (nonZeroSamples v k).length + 1
            else (nonZeroSamples v k).length) = (nonZeroSamples v (k + 1)).length := by
          rw [nonZeroSamples_succ, hsa]
          by_cases h0 : r * 8 = 0
          · simp [h0]
          · simp [h0]
        have hsum : (if r * 8 ≠ 0 then (nonZeroSamples v k).sum + r * 8
            else (nonZeroSamples v k).sum) = (nonZeroSamples v (k + 1)).sum := by
          rw [nonZeroSamples_succ, hsa]
          by_cases h0 : r * 8 = 0
          · simp [h0]
          · simp [h0]
        simp only [hp, hr, Bool.not_false, Bool.and_self, if_true, hlen, hsum]
        apply ih (k + 1) _ (by omega) (by omega)
        · intro hs
          by_contra hne
          have h3 := h.2.2.1 (k + 1) (by omega) (by omega)
          simp [h3] at hs
        · intro hs hn1
          rcases h.2.2.2 with ⟨_, hc⟩ | hpn
          · rw [← hn1] at hc
            simp [hc] at hs
          · exact hpn

theorem getBitrate_ends (v : Vlc) (st : Int) (n fuel : Nat) (hready : v.Ready)
    (h : EndsAfter v st n) (hf : n < fuel) :
    getBitrate v st fuel
      = some ⟨fdiv (nonZeroSamples v n).sum (nonZeroSamples v n).length, none, n⟩ := by
  obtain ⟨h1, h2, h3, h4, h5⟩ := hready
  have hloop := sampleLoop_ends v st n h fuel 0 false (Nat.zero_le n) (by omega)
    (by simp) (by
      intro _ h0
      rcases h.2.2.2 with ⟨hpos, _⟩ | hpn
      · omega
      · exact hpn)
  simp only [getBitrate, h1, h2, h3, h4, h5, if_true]
  simpa [nonZeroSamples] using hloop

/-! ## C6, C10: what `getBitrate` returns without a usable sample -/

theorem silentStream_ends : EndsAfter silentStream 5 3 := by
  have hs : ∀ i, sampleAt silentStream i = 0 := by
    intro i
    simp [sampleAt, silentStream, vlcOf]
  have hz : ∀ i, nonZeroSamples silentStream i = [] := by
    intro i
    simp [nonZeroSamples, List.filter_eq_nil_iff, hs]
  refine ⟨?_, ?_, ?_, ?_⟩
  · intro i hi
    simp [silentStream, vlcOf, hi]
  · intro i _
    simp [readOk, silentStream, vlcOf]
  · intro i _ _
    simp [hz]
  · right
    simp [silentStream, vlcOf]

/-- C6 fails on the code. The stream plays for three seconds, every sample reads as
zero, then playback ends: `getBitrate` returns `0/0 = NaN` with a nil error, and
`runAnalysis` reports success with that value. -/
theorem getBitrate_no_signal_returns_nan :
    nonZeroSamples silentStream 3 = [] ∧
    getBitrate silentStream 5 4 = some ⟨F64.nan, none, 3⟩ ∧
    runAnalysis (worldOf silentStream Order.bitrateFirst) goodTarget 5 4
      = some (F64.nan, F64.num 12, none) := by
  have hz : nonZeroSamples silentStream 3 = [] := by
    simp [nonZeroSamples, List.filter_eq_nil_iff, sampleAt, silentStream, vlcOf]
  have hb : getBitrate silentStream 5 4 = some ⟨F64.nan, none, 3⟩ := by
    rw [getBitrate_ends silentStream 5 3 4 (by simp [Vlc.Ready, silentStream, vlcOf])
      silentStream_ends (by decide), hz]
    simp [fdiv]
  refine ⟨hz, hb, ?_⟩
  simp [runAnalysis, worldOf_vlc, hb, getLatency_goodTarget, storeBitrate, storeLatency,
    worldOf_order]

/-- C10 fails on the code. `media.Stats()` fails in the first iteration of the sampling
loop: `getBitrate` returns the value 0 with a nil error, and `runAnalysis` reports
success with bitrate 0. -/
theorem getBitrate_stats_failure_returns_nil :
    statsFailVlc.stats 0 = .error "stats failed" ∧
    getBitrate statsFailVlc 5 1 = some ⟨F64.num 0, none, 1⟩ ∧
    runAnalysis (worldOf statsFailVlc Order.bitrateFirst) goodTarget 5 1
      = some (F64.num 0, F64.num 12, none) := by
  have hb : getBitrate statsFailVlc 5 1 = some ⟨F64.num 0, none, 1⟩ := by
    simp [getBitrate, statsFailVlc, sampleLoop]
  refine ⟨rfl, hb, ?_⟩
  simp [runAnalysis, worldOf_vlc, hb, getLatency_goodTarget, storeBitrate, storeLatency,
    worldOf_order]

/-! ## C7: the value returned is the mean of the non-zero samples -/

/-- C7. When the sampling loop makes `n` reads, all successful, and ends, and at least
one of the samples is non-zero, `getBitrate` returns (given fuel for the `n + 1` tests of
the loop condition) the sum of the non-zero samples divided by their number, with a nil
error. Any other such run with the same non-zero samples, whatever zero samples lie
between them, returns the same value. -/
theorem getBitrate_mean_of_nonzero (v : Vlc) (st : Int) (n : Nat)
    (hready : v.Ready) (hend : EndsAfter v st n) (hnz : nonZeroSamples v n ≠ []) :
    (∀ fuel, n < fuel →
      getBitrate v st fuel
        = some ⟨F64.num ((nonZeroSamples v n).sum / ((nonZeroSamples v n).length : ℚ)),
            none, n⟩) ∧
    (∀ (v1 : Vlc) (st1 : Int) (n1 : Nat), v1.Ready → EndsAfter v1 st1 n1 →
      nonZeroSamples v1 n1 = nonZeroSamples v n →
      ∀ fuel1, n1 < fuel1 →
        (getBitrate v1 st1 fuel1).map (fun r => r.value)
          = some (F64.num ((nonZeroSamples v n).sum / ((nonZeroSamples v n).length : ℚ)))) := by
  have hlen : (nonZeroSamples v n).length ≠ 0 := by
    intro h0
    exact hnz (List.length_eq_zero.mp h0)
  constructor
  · intro fuel hf
    rw [getBitrate_ends v st n fuel hready hend hf]
    simp [fdiv, hlen]
  · intro v1 st1 n1 hready1 hend1 heq fuel1 hf1
    rw [getBitrate_ends v1 st1 n1 fuel1 hready1 hend1 hf1, heq]
    simp [fdiv, hlen]

theorem hiccupStream_samples :
    nonZeroSamples hiccupStream 0 = [] ∧ nonZeroSamples hiccupStream 1 = [] ∧
    nonZeroSamples hiccupStream 2 = [800] ∧ nonZeroSamples hiccupStream 3 = [800, 800] := by
  have h0 : sampleAt hiccupStream 0 = 0 := by simp [sampleAt, hiccupStream, vlcOf]
  have h1 : sampleAt hiccupStream 1 = 800 := by
    simp [sampleAt, hiccupStream, vlcOf]
    norm_num
  have h2 : sampleAt hiccupStream 2 = 800 := by
    simp [sampleAt, hiccupStream, vlcOf]
    norm_num
  have e0 : nonZeroSamples hiccupStream 0 = [] := by simp [nonZeroSamples]
  have e1 : nonZeroSamples hiccupStream 1 = [] := by
    rw [nonZeroSamples_succ, e0, h0]
    simp
  have e2 : nonZeroSamples hiccupStream 2 = [800] := by
    rw [nonZeroSamples_succ, e1, h1]
    simp
  have e3 : nonZeroSamples hiccupStream 3 = [800, 800] := by
    rw [nonZeroSamples_succ, e2, h2]
    simp
  exact ⟨e0, e1, e2, e3⟩

theorem hiccupStream_ready : hiccupStream.Ready := by
  simp [Vlc.Ready, hiccupStream, vlcOf]

theorem hiccupStream_readOk (i : Nat) : readOk hiccupStream i = true := by
  simp [readOk, hiccupStream, vlcOf]

theorem hiccupStream_ends : EndsAfter hiccupStream 2 3 := by
  obtain ⟨e0, e1, e2, e3⟩ := hiccupStream_samples
  refine ⟨?_, ?_, ?_, ?_⟩
  · intro i _
    simp [hiccupStream, vlcOf]
  · intro i _
    exact hiccupStream_readOk i
  · intro i hi hpos
    interval_cases i
    · simp [e1]
    · simp [e2]
  · left
    simp [e3]

theorem getBitrate_mean_of_nonzero_witness :
    hiccupStream.Ready ∧ EndsAfter hiccupStream 2 3 ∧ nonZeroSamples hiccupStream 3 ≠ [] ∧
    (∀ fuel, 3 < fuel →
      getBitrate hiccupStream 2 fuel
        = some ⟨F64.num ((nonZeroSamples hiccupStream 3).sum
            / ((nonZeroSamples hiccupStream 3).length : ℚ)), none, 3⟩) ∧
    (∀ (v1 : Vlc) (st1 : Int) (n1 : Nat), v1.Ready → EndsAfter v1 st1 n1 →
      nonZeroSamples v1 n1 = nonZeroSamples hiccupStream 3 →
      ∀ fuel1, n1 < fuel1 →
        (getBitrate v1 st1 fuel1).map (fun r => r.value)
          = some (F64.num ((nonZeroSamples hiccupStream 3).sum
            / ((nonZeroSamples hiccupStream 3).length : ℚ)))) :=
  have hnz : nonZeroSamples hiccupStream 3 ≠ [] := by
    rw [hiccupStream_samples.2.2.2]
    simp
  ⟨hiccupStream_ready, hiccupStream_ends, hnz,
    getBitrate_mean_of_nonzero hiccupStream 2 3 hiccupStream_ready hiccupStream_ends hnz⟩

/-! ## C8: the length of the sampling window -/

/-- C8 as stated fails. With `streamingTime = 2` and a stream that keeps playing, whose
first sample reads as zero, the loop makes three reads before it stops, not two. -/
theorem sampling_window_longer_than_streamingTime :
    (∀ i, hiccupStream.playing i = true) ∧
    getBitrate hiccupStream 2 4 = some ⟨F64.num 800, none, 3⟩ ∧
    (3 : Int) ≠ 2 := by
  refine ⟨fun i => by simp [hiccupStream, vlcOf], ?_, by decide⟩
  rw [getBitrate_ends hiccupStream 2 3 4 hiccupStream_ready hiccupStream_ends (by decide),
    hiccupStream_samples.2.2.2]
  simp [fdiv]

/-- C8, amended. For `streamingTime ≥ 1` and a stream that stays playing and whose reads
succeed, the loop stops right after the read that delivers the `streamingTime`-th
non-zero sample: if that is the `n`-th read, `getBitrate` returns after exactly `n`
reads, and `n` is `streamingTime` plus the number of samples that read as zero, so the
window is `streamingTime` seconds only when no sample reads as zero. -/
theorem sampling_window_counts_nonzero (v : Vlc) (st : Int) (n : Nat)
    (hst : 1 ≤ st) (hready : v.Ready)
    (hplay : ∀ i, v.playing i = true)
    (hok : ∀ i, i < n → readOk v i = true)
    (hlast : sampleAt v (n - 1) ≠ 0)
    (hcount : ((nonZeroSamples v n).length : Int) = st) :
    ∀ fuel, n < fuel →
      ∃ r, getBitrate v st fuel = some r ∧ r.reads = n ∧ r.err = none ∧
        (n : Int) = st + (zeroSamples v n : Int) ∧
        (zeroSamples v n = 0 → (n : Int) = st) := by
  intro fuel hf
  have hn : 0 < n := by
    rcases Nat.eq_zero_or_pos n with h0 | h0
    · subst h0
      simp [nonZeroSamples] at hcount
      omega
    · exact h0
  have hn1 : n - 1 + 1 = n := by omega
  have hprev : (nonZeroSamples v n).length = (nonZeroSamples v (n - 1)).length + 1 := by
    have h := nonZeroSamples_succ v (n - 1)
    rw [hn1] at h
    rw [h]
    simp [hlast]
  have hend : EndsAfter v st n := by
    refine ⟨fun i _ => hplay i, hok, ?_, Or.inl ⟨hn, hcount⟩⟩
    intro i hi _
    have hm := nonZeroSamples_length_mono v i (n - 1) (by omega)
    omega
  have htot := nonZero_add_zero v n
  have hsum : (n : Int) = st + (zeroSamples v n : Int) := by omega
  refine ⟨_, getBitrate_ends v st n fuel hready hend hf, rfl, rfl, hsum, ?_⟩
  intro hz
  omega

theorem sampling_window_counts_nonzero_witness :
    (1 : Int) ≤ 2 ∧ hiccupStream.Ready ∧ (∀ i, hiccupStream.playing i = true) ∧
    sampleAt hiccupStream (3 - 1) ≠ 0 ∧ zeroSamples hiccupStream 3 = 1 ∧
    ∀ fuel, 3 < fuel →
      ∃ r, getBitrate hiccupStream 2 fuel = some r ∧ r.reads = 3 ∧ r.err = none ∧
        ((3 : Nat) : Int) = 2 + (zeroSamples hiccupStream 3 : Int) ∧
        (zeroSamples hiccupStream 3 = 0 → ((3 : Nat) : Int) = 2) :=
  have hlast : sampleAt hiccupStream (3 - 1) ≠ 0 := by
    simp [sampleAt, hiccupStream, vlcOf]
  have hplay : ∀ i, hiccupStream.playing i = true := fun i => by simp [hiccupStream, vlcOf]
  have hz : zeroSamples hiccupStream 3 = 1 := by
    have h := nonZero_add_zero hiccupStream 3
    rw [hiccupStream_samples.2.2.2] at h
    simp at h
    omega
  ⟨by decide, hiccupStream_ready, hplay, hlast, hz,
    sampling_window_counts_nonzero hiccupStream 2 3 (by decide) hiccupStream_ready hplay
      (fun i _ => hiccupStream_readOk i) hlast
      (by rw [hiccupStream_samples.2.2.2]; rfl)⟩

/-! ## C9: the host handed to the resolver -/

theorem splitAux_no_sep (sep : Char) (a : List Char) (h : sep ∉ a) :
    ∀ cur, splitAux sep a cur = [String.mk (cur.reverse ++ a)] := by
  induction a with
  | nil =>
    intro cur
    simp [splitAux]
  | cons c cs ih =>
    intro cur
    have hc : c ≠ sep := fun e => h (by simp [e])
    have hcs : sep ∉ cs := fun e => h (by simp [e])
    simp [splitAux, hc, ih hcs]

theorem splitAux_first_piece (sep : Char) (a r : List Char) (h : sep ∉ a) :
    ∀ cur, splitAux sep (a ++ sep :: r) cur
      = String.mk (cur.reverse ++ a) :: splitAux sep r [] := by
  induction a with
  | nil =>
    intro cur
    simp [splitAux]
  | cons c cs ih =>
    intro cur
    have hc : c ≠ sep := fun e => h (by simp [e])
    have hcs : sep ∉ cs := fun e => h (by simp [e])
    simp [splitAux, hc, ih hcs]

theorem stringsSplit_head_host (h port : String) (hc : ':' ∉ h.data) :
    (stringsSplit h ':').headD "" = h ∧
      (stringsSplit (h ++ ":" ++ port) ':').headD "" = h := by
  constructor
  · simp [stringsSplit, splitAux_no_sep ':' h.data hc]
  · have hd : (h ++ ":" ++ port).data = h.data ++ ':' :: port.data := by
      simp [String.data_append]
    simp [stringsSplit, hd, splitAux_first_piece ':' h.data port.data hc]

/-- C9 as stated fails. `url.Parse` accepts `foo` and `rtmp:///live` with an empty host
and no error, so `parseDomainFromUrl` returns the empty string with a nil error and
`getLatency` calls `net.ResolveIPAddr` with it. -/
theorem parseDomainFromUrl_accepts_empty_host :
    parseDomainFromUrl (worldOf steadyStream Order.bitrateFirst) "foo" = .ok "" ∧
    (getLatency (worldOf steadyStream Order.bitrateFirst) "foo").resolved = some "" ∧
    parseDomainFromUrl (worldOf steadyStream Order.bitrateFirst) "rtmp:///live" = .ok "" ∧
    (getLatency (worldOf steadyStream Order.bitrateFirst) "rtmp:///live").resolved
      = some "" := by
  have h1 : urlParse "foo" = .ok ⟨"", "", "", "foo", "", ""⟩ := by decide
  have h2 : urlParse "rtmp:///live" = .ok ⟨"rtmp", "", "", "/live", "", ""⟩ := by decide
  have h3 : (stringsSplit "" ':').headD "" = "" := by decide
  have p1 : parseDomainFromUrl (worldOf steadyStream Order.bitrateFirst) "foo" = .ok "" := by
    simp only [parseDomainFromUrl, worldOf, h1, h3]
  have p2 : parseDomainFromUrl (worldOf steadyStream Order.bitrateFirst) "rtmp:///live"
      = .ok "" := by
    simp only [parseDomainFromUrl, worldOf, h2, h3]
  refine ⟨p1, ?_, p2, ?_⟩
  · simp only [getLatency, p1]
    simp [worldOf]
  · simp only [getLatency, p2]
    simp [worldOf]

/-- C9, amended. `parseDomainFromUrl` returns an error exactly when `url.Parse` does, and
then `getLatency` fails with that error before `net.ResolveIPAddr` is called. When
`url.Parse` succeeds, also with an empty host, `parseDomainFromUrl` returns a domain
with a nil error and `getLatency` calls `net.ResolveIPAddr` with it. When the parsed
host is `h` or `h:port` with no colon in `h`, the domain is exactly `h`. -/
theorem parseDomainFromUrl_follows_urlParse (w : World) (target : String) :
    (∀ err, w.urlParse target = .error err →
      parseDomainFromUrl w target = .error err ∧
        getLatency w target = ⟨F64.num 0, some err, none⟩) ∧
    (∀ u, w.urlParse target = .ok u →
      ∃ d, parseDomainFromUrl w target = .ok d ∧ (getLatency w target).resolved = some d) ∧
    (∀ u, w.urlParse target = .ok u → u.host = "" →
      parseDomainFromUrl w target = .ok "" ∧ (getLatency w target).resolved = some "") ∧
    (∀ u (h port : String), w.urlParse target = .ok u → ':' ∉ h.data →
      (u.host = h ∨ u.host = h ++ ":" ++ port) → parseDomainFromUrl w target = .ok h) := by
  have hres : ∀ d, parseDomainFromUrl w target = .ok d →
      (getLatency w target).resolved = some d := by
    intro d hd
    simp only [getLatency, hd]
    cases w.resolveIPAddr d with
    | some e => rfl
    | none =>
      cases (w.ping d).run with
      | some e => rfl
      | none => rfl
  refine ⟨?_, ?_, ?_, ?_⟩
  · intro err he
    have hp : parseDomainFromUrl w target = .error err := by
      simp [parseDomainFromUrl, he]
    exact ⟨hp, by simp [getLatency, hp]⟩
  · intro u hu
    have hp : parseDomainFromUrl w target = .ok ((stringsSplit u.host ':').headD "") := by
      simp [parseDomainFromUrl, hu]
    exact ⟨_, hp, hres _ hp⟩
  · intro u hu hh
    have h3 : (stringsSplit "" ':').headD "" = "" := by decide
    have hp : parseDomainFromUrl w target = .ok "" := by
      simp only [parseDomainFromUrl, hu, hh, h3]
    exact ⟨hp, hres _ hp⟩
  · intro u h port hu hc hh
    have hs := stringsSplit_head_host h port hc
    rcases hh with hh | hh
    · simp only [parseDomainFromUrl, hu, hh, hs.1]
    · simp only [parseDomainFromUrl, hu, hh, hs.2]

theorem parseDomainFromUrl_follows_urlParse_witness :
    urlParse "rtmp://good.example:1935/live"
      = .ok ⟨"rtmp", "", "good.example:1935", "/live", "", ""⟩ ∧
    urlParse "http://h:x/"
      = .error ("parse " ++ quote "http://h:x/" ++ ": "
          ++ ("invalid port " ++ quote ":x" ++ " after host")) ∧
    parseDomainFromUrl (worldOf steadyStream Order.bitrateFirst)
      "rtmp://good.example:1935/live" = .ok "good.example" ∧
    getLatency (worldOf steadyStream Order.bitrateFirst) "http://h:x/"
      = ⟨F64.num 0, some ("parse " ++ quote "http://h:x/" ++ ": "
          ++ ("invalid port " ++ quote ":x" ++ " after host")), none⟩ :=
  have h1 : urlParse "rtmp://good.example:1935/live"
      = .ok ⟨"rtmp", "", "good.example:1935", "/live", "", ""⟩ := by decide
  have h2 : urlParse "http://h:x/"
      = .error ("parse " ++ quote "http://h:x/" ++ ": "
          ++ ("invalid port " ++ quote ":x" ++ " after host")) := by decide
  ⟨h1, h2,
    (parseDomainFromUrl_follows_urlParse (worldOf steadyStream Order.bitrateFirst)
      "rtmp://good.example:1935/live").2.2.2 _ "good.example" "1935" h1 (by decide)
      (Or.inr (by decide)),
    ((parseDomainFromUrl_follows_urlParse (worldOf steadyStream Order.bitrateFirst)
      "http://h:x/").1 _ h2).2⟩

end StreamStats
